import Mathlib

/-!
Formal model of the Hyperlane warp token-bridge core: the EVM token adapters
(native, ERC20, router and router-collateral variants), the Cosmos IBC native
token adapter, configuration-vs-chain metadata validation, and the token route
graph (`computeTokenRoutes` / `getTokenRoutes` / `getTokenRoute`).

Each definition is a shallow embedding of the corresponding TypeScript source:
JavaScript objects keyed by chain id become insertion-ordered association
lists, a thrown `Error` becomes `Except.error` carrying the thrown message,
JavaScript `Set` becomes an insertion-ordered duplicate-free list, the 64-bit
`Long` arithmetic of the IBC timeout is wrapped modulo `2^64` into the signed
range, and on-chain reads (contract state, clock) become explicit inputs.
-/

abbrev Caip2Id := String

abbrev Address := String

abbrev DomainId := Nat

/-- Minimal token metadata as returned by adapter `getMetadata` calls:
the `{ decimals, symbol, name }` record of the source. -/
structure MinimalTokenMetadata where
  decimals : Nat
  symbol : String
  name : String
deriving DecidableEq, Repr

/-- Calldata of an EVM contract call populated by the adapters
(`populateTransaction.approve` / `.transfer` / `.transferRemote`). -/
inductive EvmCall
  | approve (recipient : Address) (amountOrId : Nat)
  | transfer (recipient : Address) (amountOrId : Nat)
  | transferRemote (destination : DomainId) (recipient : Address) (amountOrId : Nat)
deriving DecidableEq, Repr

/-- An unsigned EVM transaction as assembled by the adapters: either a plain
value transfer (the source's `{ value, to }`, the `to` field rendered here as
`toAddr`) or a populated contract call. -/
structure PopulatedTransaction where
  toAddr : Option Address
  value : Option Nat
  data : Option EvmCall
deriving DecidableEq, Repr

/-- On-chain state readable through an `ERC20Upgradeable` contract handle:
the three metadata fields and balances. -/
structure Erc20Contract where
  decimals : Nat
  symbol : String
  name : String
  balanceOf : Address → Nat

/-- On-chain state readable through a `HypERC20` contract handle: the ERC20
surface plus the router registry (`domains()` / `routers(domain)`, the latter
returning a bytes32 value). -/
structure HypErc20Contract extends Erc20Contract where
  domains : List DomainId
  routers : DomainId → String

/-- State of an `EvmTokenAdapter` (and of its `EvmHypTokenAdapter` /
`EvmHypTokenCollateralAdapter` subclasses): the contract address the adapter
was constructed with and the contract state it reads through its handle. -/
structure EvmTokenAdapterState where
  contractAddress : Address
  contract : HypErc20Contract

/-- Modelled from the spec: `bytes32ToAddress` comes from the external
`at-hyperlane-xyz/utils` package, which is not part of the provided sources;
it truncates a 32-byte hex value to its low 20 bytes, i.e. keeps the last 40
hex characters under an `0x` prefix. -/
def bytes32ToAddress (b : String) : Address :=
  "0x" ++ b.drop (b.length - 40)

/-- Modelled from the spec: `normalizeEvmAddress` from `src/utils/addresses`
is not among the provided sources; it canonicalizes the casing of an EVM
address string (modelled as lower-casing). -/
def normalizeEvmAddress (a : Address) : Address :=
  a.toLower

/-- `EvmNativeTokenAdapter.getMetadata`: always throws
`Metadata not available to native tokens`. -/
def EvmNativeTokenAdapter.getMetadata : Except String MinimalTokenMetadata :=
  .error "Metadata not available to native tokens"

/-- `EvmNativeTokenAdapter.prepareApproveTx`: always throws
`Approve not required for native tokens`, ignoring both arguments. -/
def EvmNativeTokenAdapter.prepareApproveTx (_recipient : Address) (_amountOrId : Nat) :
    Except String PopulatedTransaction :=
  .error "Approve not required for native tokens"

/-- `EvmNativeTokenAdapter.prepareTransferTx`: succeeds with a plain
value-transfer payload `{ value, to: recipient }`. -/
def EvmNativeTokenAdapter.prepareTransferTx (recipient : Address) (amountOrId : Nat) :
    Except String PopulatedTransaction :=
  .ok { toAddr := some recipient, value := some amountOrId, data := none }

/-- `EvmTokenAdapter.getMetadata`: the conjunction of the contract's three
metadata reads (fetched concurrently in the source via `Promise.all`). -/
def EvmTokenAdapter.getMetadata (a : EvmTokenAdapterState) :
    Except String MinimalTokenMetadata :=
  .ok { decimals := a.contract.decimals, symbol := a.contract.symbol, name := a.contract.name }

/-- `EvmTokenAdapter.prepareApproveTx`: populates an `approve` call on the
adapter's contract. -/
def EvmTokenAdapter.prepareApproveTx (a : EvmTokenAdapterState)
    (recipient : Address) (amountOrId : Nat) : Except String PopulatedTransaction :=
  .ok { toAddr := some a.contractAddress, value := none, data := some (.approve recipient amountOrId) }

/-- `EvmTokenAdapter.prepareTransferTx`: populates a `transfer` call on the
adapter's contract. -/
def EvmTokenAdapter.prepareTransferTx (a : EvmTokenAdapterState)
    (recipient : Address) (amountOrId : Nat) : Except String PopulatedTransaction :=
  .ok { toAddr := some a.contractAddress, value := none,
        data := some (.transfer recipient amountOrId) }

/-- `EvmHypTokenAdapter.getDomains`: the contract's `domains()` read. -/
def EvmHypTokenAdapter.getDomains (a : EvmTokenAdapterState) : List DomainId :=
  a.contract.domains

/-- `EvmHypTokenAdapter.getRouterAddress`: reads `routers(domain)` as bytes32
and converts/normalizes it to an EVM address. -/
def EvmHypTokenAdapter.getRouterAddress (a : EvmTokenAdapterState) (domain : DomainId) :
    Address :=
  normalizeEvmAddress (bytes32ToAddress (a.contract.routers domain))

/-- A `{ domain, address }` pair discovered from a deployed router. -/
structure RouterEntry where
  domain : DomainId
  address : Address
deriving DecidableEq, Repr

/-- `EvmHypTokenAdapter.getAllRouters`: reads the domain list, resolves every
domain to a router address (in the source via `Promise.all` over
`domains.map`), and pairs the i-th domain with the i-th resolved address.
The two lists have equal length by construction, so the source's indexed
`domains.map((d, i) => ({ domain: d, address: routers[i] }))` is the
positional zip of the two lists. -/
def EvmHypTokenAdapter.getAllRouters (a : EvmTokenAdapterState) : List RouterEntry :=
  let domains := EvmHypTokenAdapter.getDomains a
  let routers := domains.map (fun d => EvmHypTokenAdapter.getRouterAddress a d)
  List.zipWith (fun d r => RouterEntry.mk d r) domains routers

/-- `EvmHypTokenCollateralAdapter.getMetadata` override: always throws
`Metadata not available for HypCollateral/HypNative contract.`, ignoring the
contract state entirely. -/
def EvmHypTokenCollateralAdapter.getMetadata (_a : EvmTokenAdapterState) :
    Except String MinimalTokenMetadata :=
  .error "Metadata not available for HypCollateral/HypNative contract."

/-- `EvmHypTokenCollateralAdapter.prepareApproveTx` override: always throws
`Approve not applicable to HypCollateral/HypNative contract.`. -/
def EvmHypTokenCollateralAdapter.prepareApproveTx (_a : EvmTokenAdapterState)
    (_recipient : Address) (_amountOrId : Nat) : Except String PopulatedTransaction :=
  .error "Approve not applicable to HypCollateral/HypNative contract."

/-- `EvmHypTokenCollateralAdapter.prepareTransferTx` override: always throws
`Local transfer not supported for HypCollateral/HypNative contract.`. -/
def EvmHypTokenCollateralAdapter.prepareTransferTx (_a : EvmTokenAdapterState)
    (_recipient : Address) (_amountOrId : Nat) : Except String PopulatedTransaction :=
  .error "Local transfer not supported for HypCollateral/HypNative contract."

/-- The `properties` record required by `CosmNativeTokenAdapter`: an absent
TypeScript property is modelled as the empty string, matching the source's
falsiness check. -/
structure CosmProperties where
  ibcDenom : String
  sourcePort : String
  sourceChannel : String
deriving DecidableEq, Repr

/-- A constructed `CosmNativeTokenAdapter` instance (the chain connection and
address book play no role in the modelled behavior and are omitted). -/
structure CosmNativeTokenAdapterState where
  chainName : String
  properties : CosmProperties
deriving DecidableEq, Repr

/-- The `CosmNativeTokenAdapter` constructor: throws
`Missing properties for CosmNativeTokenAdapter` when any of `ibcDenom`,
`sourcePort`, `sourceChannel` is missing/empty (falsy), before any transfer
can be attempted; otherwise returns the constructed instance. -/
def CosmNativeTokenAdapter.construct (chainName : String) (properties : CosmProperties) :
    Except String CosmNativeTokenAdapterState :=
  if properties.ibcDenom = "" || properties.sourcePort = "" || properties.sourceChannel = "" then
    .error "Missing properties for CosmNativeTokenAdapter"
  else
    .ok { chainName := chainName, properties := properties }

/-- `COSMOS_IBC_TRANSFER_TIMEOUT = 60_000` milliseconds (one minute). -/
def COSMOS_IBC_TRANSFER_TIMEOUT : Nat := 60000

/-- Two's-complement wrap of an integer into the signed 64-bit range, the
overflow behavior of the `Long` value used for the IBC timeout. -/
def wrap64 (x : Int) : Int :=
  (x + 2 ^ 63) % 2 ^ 64 - 2 ^ 63

/-- The `value` field of the constructed `MsgTransfer` (the token sub-record
`{ denom, amount }` is flattened into `tokenDenom` / `tokenAmount`). -/
structure MsgTransferValue where
  sourcePort : String
  sourceChannel : String
  tokenDenom : String
  tokenAmount : String
  sender : String
  receiver : String
  timeoutTimestamp : Int
  memo : String
deriving DecidableEq, Repr

/-- A `MsgTransferEncodeObject` as returned by `populateTransferTx`. -/
structure MsgTransferEncodeObject where
  typeUrl : String
  value : MsgTransferValue
deriving DecidableEq, Repr

/-- Transfer parameters; an absent `fromAccountOwner` is modelled as the empty
string, matching the source's falsiness check. -/
structure TransferParams where
  weiAmountOrId : Nat
  recipient : String
  fromAccountOwner : String
deriving DecidableEq, Repr

/-- `CosmNativeTokenAdapter.populateTransferTx`: requires a sender identity,
then builds the IBC `MsgTransfer` whose `timeoutTimestamp` is the current
clock reading (`new Date().getTime()`, passed here explicitly as `nowMs`)
plus `COSMOS_IBC_TRANSFER_TIMEOUT`, scaled to nanoseconds through 64-bit
`Long` arithmetic. The clock is read inside the call, so the deadline depends
only on the call-time clock value, not on adapter construction. -/
def CosmNativeTokenAdapter.populateTransferTx (a : CosmNativeTokenAdapterState)
    (transferParams : TransferParams) (memo : String) (nowMs : Nat) :
    Except String MsgTransferEncodeObject :=
  if transferParams.fromAccountOwner = "" then
    .error "fromAccountOwner is required for ibc transfers"
  else
    .ok { typeUrl := "/ibc.applications.transfer.v1.MsgTransfer"
          value := {
            sourcePort := a.properties.sourcePort
            sourceChannel := a.properties.sourceChannel
            tokenDenom := a.properties.ibcDenom
            tokenAmount := toString transferParams.weiAmountOrId
            sender := transferParams.fromAccountOwner
            receiver := transferParams.recipient
            timeoutTimestamp := wrap64 (((nowMs : Int) + COSMOS_IBC_TRANSFER_TIMEOUT) * 1000000)
            memo := memo } }

/-- The token-standard discriminant of a configured token (only the
`collateral` case matters to the modelled logic). -/
inductive TokenType
  | native
  | collateral
  | synthetic
deriving DecidableEq, Repr

/-- Chain protocol families. -/
inductive ProtocolType
  | ethereum
  | sealevel
  | cosmos
deriving DecidableEq, Repr

/-- A configured token record (the fields of `TokenMetadata` read by the
modelled functions). -/
structure TokenMetadata where
  protocol : ProtocolType
  tokenType : TokenType
  caip2Id : Caip2Id
  address : Address
  symbol : String
  name : String
  decimals : Nat
  tokenRouterAddress : Address
deriving DecidableEq, Repr

/-- `validateTokenMetadata`: non-collateral tokens are skipped; Sealevel
collateral tokens are skipped (TODO in the source); for an Ethereum
collateral token the configured decimals and symbol are compared with the
values read on chain (passed here explicitly as `onChain`, the result of the
adapter's `getMetadata`), throwing on the first mismatch with a message
naming the mismatched config field and both values. The symbol-mismatch
message reproduces the source verbatim, including its `contract decimals`
label on the on-chain symbol. A collateral token of any other protocol has no
adapter assigned and the source's non-null assertion crashes; that fall-through
is modelled as a `TypeError` error value. -/
def validateTokenMetadata (token : TokenMetadata) (onChain : MinimalTokenMetadata) :
    Except String Unit :=
  if token.tokenType ≠ TokenType.collateral then .ok ()
  else
    match token.protocol with
    | ProtocolType.sealevel => .ok ()
    | ProtocolType.cosmos => .error "TypeError: tokenAdapter is undefined"
    | ProtocolType.ethereum =>
      if token.decimals ≠ onChain.decimals then
        .error ("Token config decimals " ++ toString token.decimals ++
          " does not match contract decimals " ++ toString onChain.decimals)
      else if token.symbol ≠ onChain.symbol then
        .error ("Token config symbol " ++ token.symbol ++
          " does not match contract decimals " ++ onChain.symbol)
      else .ok ()

/-- The `RouteType` enum of the route graph. -/
inductive RouteType
  | baseToSynthetic
  | syntheticToSynthetic
  | syntheticToBase
deriving DecidableEq, Repr

/-- A directed edge of the route graph. -/
structure Route where
  routeType : RouteType
  baseCaip2Id : Caip2Id
  baseTokenAddress : Address
  tokenRouterAddress : Address
  originTokenAddress : Address
  destTokenAddress : Address
  decimals : Nat
deriving DecidableEq, Repr

/-- A remote synthetic deployment of a base token, as produced by
`fetchRemoteHypTokens`: the router address on the remote chain and that
chain's id. -/
structure HypTokenRef where
  address : Address
  caip2Id : Caip2Id
deriving DecidableEq, Repr

/-- A configured token together with its discovered synthetic deployments
(`TokenMetadataWithHypTokens`). -/
structure TokenMetadataWithHypTokens extends TokenMetadata where
  hypTokens : List HypTokenRef
deriving DecidableEq, Repr

/-- The inner level of the `RoutesMap` JavaScript object: destination chain
id to edge list, as an insertion-ordered association list. -/
abbrev InnerRoutes := List (Caip2Id × List Route)

/-- `RoutesMap`: origin chain id to destination chain id to edge list, as a
nested insertion-ordered association list. -/
abbrev RoutesMap := List (Caip2Id × InnerRoutes)

/-- Property lookup on a string-keyed JavaScript object modelled as an
association list; `none` is JavaScript's `undefined`. -/
def alookup {α : Type} : List (Caip2Id × α) → Caip2Id → Option α
  | [], _ => none
  | (k, v) :: rest, key => if k = key then some v else alookup rest key

/-- Appending an element to a `Set`-like list only when absent, the behavior
of `Set.add` (JavaScript sets preserve insertion order). -/
def insertUnique (l : List Caip2Id) (x : Caip2Id) : List Caip2Id :=
  if x ∈ l then l else l ++ [x]

/-- `getChainsFromTokens`: collects, in first-insertion order, every chain id
occurring as a token's own chain or as one of its synthetics' chains. -/
def getChainsFromTokens (tokens : List TokenMetadataWithHypTokens) : List Caip2Id :=
  tokens.foldl
    (fun acc t => t.hypTokens.foldl (fun acc2 h => insertUnique acc2 h.caip2Id)
      (insertUnique acc t.caip2Id))
    []

/-- The skeleton's inner map for one origin: an empty edge list for every
other chain, in chain-list order (the `if origin === dest continue` loop). -/
def initInnerRoutes (allChainIds : List Caip2Id) (origin : Caip2Id) : InnerRoutes :=
  (allChainIds.filter (fun dest => dest ≠ origin)).map (fun dest => (dest, []))

/-- The dense adjacency skeleton of `computeTokenRoutes`: one inner map per
chain in the chain list. -/
def initRoutesMap (allChainIds : List Caip2Id) : RoutesMap :=
  allChainIds.map (fun origin => (origin, initInnerRoutes allChainIds origin))

/-- `tokenRoutes[o][d].push(r)` on the inner object: appends to the edge list
under key `d`, or fails (`none`, JavaScript's TypeError on `undefined`) when
the key is absent. -/
def pushInner : InnerRoutes → Caip2Id → Route → Option InnerRoutes
  | [], _, _ => none
  | (k, rs) :: rest, key, r =>
    if k = key then some ((k, rs ++ [r]) :: rest)
    else (pushInner rest key r).map (fun rest2 => (k, rs) :: rest2)

/-- `tokenRoutes[o][d].push(r)` on the outer object. -/
def pushRoute : RoutesMap → Caip2Id → Caip2Id → Route → Option RoutesMap
  | [], _, _, _ => none
  | (k, inner) :: rest, origin, dest, r =>
    if k = origin then (pushInner inner dest r).map (fun inner2 => (k, inner2) :: rest)
    else (pushRoute rest origin dest r).map (fun rest2 => (k, inner) :: rest2)

/-- One pending `push` of the route-computation loop. -/
structure RoutePush where
  origin : Caip2Id
  dest : Caip2Id
  route : Route
deriving DecidableEq, Repr

/-- Performs the pushes of the route-computation loop in order, failing as
the source would at the first push whose chain-pair key is absent. -/
def pushAll : RoutesMap → List RoutePush → Option RoutesMap
  | m, [] => some m
  | m, u :: rest => (pushRoute m u.origin u.dest u.route).bind (fun m2 => pushAll m2 rest)

/-- The `BaseToSynthetic` route built for one synthetic deployment. -/
def mkBaseToSynthetic (t : TokenMetadataWithHypTokens) (h : HypTokenRef) : Route :=
  { routeType := RouteType.baseToSynthetic
    baseCaip2Id := t.caip2Id
    baseTokenAddress := t.address
    tokenRouterAddress := t.tokenRouterAddress
    originTokenAddress := t.tokenRouterAddress
    destTokenAddress := h.address
    decimals := t.decimals }

/-- The mirror `SyntheticToBase` route built for one synthetic deployment. -/
def mkSyntheticToBase (t : TokenMetadataWithHypTokens) (h : HypTokenRef) : Route :=
  { routeType := RouteType.syntheticToBase
    baseCaip2Id := t.caip2Id
    baseTokenAddress := t.address
    tokenRouterAddress := t.tokenRouterAddress
    originTokenAddress := h.address
    destTokenAddress := t.tokenRouterAddress
    decimals := t.decimals }

/-- The `SyntheticToSynthetic` route from the sibling `hFrom` to the sibling
`hTo` of the same base token. -/
def mkSyntheticToSynthetic (t : TokenMetadataWithHypTokens) (hFrom hTo : HypTokenRef) : Route :=
  { routeType := RouteType.syntheticToSynthetic
    baseCaip2Id := t.caip2Id
    baseTokenAddress := t.address
    tokenRouterAddress := t.tokenRouterAddress
    originTokenAddress := hFrom.address
    destTokenAddress := hTo.address
    decimals := t.decimals }

/-- The pushes performed for one token by the nested loops of
`computeTokenRoutes`, in program order: for each synthetic deployment, the
base-to-synthetic edge and its mirror, then — for every other deployment on a
different chain — both directions of a synthetic-to-synthetic edge. -/
def tokenUpdates (t : TokenMetadataWithHypTokens) : List RoutePush :=
  t.hypTokens.flatMap (fun h =>
    RoutePush.mk t.caip2Id h.caip2Id (mkBaseToSynthetic t h) ::
    RoutePush.mk h.caip2Id t.caip2Id (mkSyntheticToBase t h) ::
    (t.hypTokens.filter (fun h2 => h2.caip2Id ≠ h.caip2Id)).flatMap (fun h2 =>
      [RoutePush.mk h.caip2Id h2.caip2Id (mkSyntheticToSynthetic t h h2),
       RoutePush.mk h2.caip2Id h.caip2Id (mkSyntheticToSynthetic t h2 h)]))

/-- All pushes of the route-computation loop, in program order. -/
def allUpdates (tokens : List TokenMetadataWithHypTokens) : List RoutePush :=
  tokens.flatMap tokenUpdates

/-- `computeTokenRoutes`: instantiates the dense skeleton over every chain in
the token set, then performs all route pushes; `none` models the TypeError
the source throws when a push addresses a chain pair absent from the skeleton
(origin = destination). -/
def computeTokenRoutes (tokens : List TokenMetadataWithHypTokens) : Option RoutesMap :=
  pushAll (initRoutesMap (getChainsFromTokens tokens)) (allUpdates tokens)

/-- `tokenRoutes[origin]?.[destination]` as an optional chained lookup. -/
def lookupRoutes (tokenRoutes : RoutesMap) (originCaip2Id destinationCaip2Id : Caip2Id) :
    Option (List Route) :=
  (alookup tokenRoutes originCaip2Id).bind (fun inner => alookup inner destinationCaip2Id)

/-- `getTokenRoutes`: the stored edge list for the ordered chain pair, or the
empty list when either level of the lookup is absent (`|| []`). -/
def getTokenRoutes (originCaip2Id destinationCaip2Id : Caip2Id) (tokenRoutes : RoutesMap) :
    List Route :=
  (lookupRoutes tokenRoutes originCaip2Id destinationCaip2Id).getD []

/-- Modelled from the spec: `isValidEvmAddress` from `src/utils/addresses` is
not among the provided sources; the spec describes it as EVM address-format
validity checking, i.e. `0x` followed by exactly 40 hexadecimal digits
(checked here on the string's character list). -/
def isValidEvmAddress (a : Address) : Bool :=
  match a.data with
  | '0' :: 'x' :: rest =>
    rest.length = 40 &&
      rest.all (fun c => c.isDigit || ('a' ≤ c && c ≤ 'f') || ('A' ≤ c && c ≤ 'F'))
  | _ => false

/-- Modelled from the spec: `areAddressesEqual` from `src/utils/addresses` is
not among the provided sources; the spec describes route lookup as filtering
by base-token identity, i.e. case-insensitive equality of the two address
strings (compared here on the lower-cased character lists). -/
def areAddressesEqual (a b : Address) : Bool :=
  a.data.map Char.toLower = b.data.map Char.toLower

/-- `getTokenRoute`: `null` for an invalid base-token address, otherwise the
first stored edge of the ordered chain pair whose `baseTokenAddress` matches,
or `null` when none matches. -/
def getTokenRoute (originCaip2Id destinationCaip2Id : Caip2Id) (baseTokenAddress : Address)
    (tokenRoutes : RoutesMap) : Option Route :=
  if !isValidEvmAddress baseTokenAddress then none
  else
    (getTokenRoutes originCaip2Id destinationCaip2Id tokenRoutes).find?
      (fun r => areAddressesEqual baseTokenAddress r.baseTokenAddress)

/-- `hasTokenRoute`: the boolean form of `getTokenRoute`. -/
def hasTokenRoute (originCaip2Id destinationCaip2Id : Caip2Id) (baseTokenAddress : Address)
    (tokenRoutes : RoutesMap) : Bool :=
  (getTokenRoute originCaip2Id destinationCaip2Id baseTokenAddress tokenRoutes).isSome

/-- The routes among a pending push list that target one ordered chain pair,
in order. -/
def routesFor (us : List RoutePush) (X Y : Caip2Id) : List Route :=
  (us.filter (fun u => decide (u.origin = X ∧ u.dest = Y))).map (fun u => u.route)

/-- Number of stored routes of a given type in one inner map. -/
def countInnerRouteType (inner : InnerRoutes) (ty : RouteType) : Nat :=
  (inner.map (fun q => (q.2.filter (fun r => decide (r.routeType = ty))).length)).sum

/-- Number of stored routes of a given type in a whole `RoutesMap`. -/
def countRouteType (m : RoutesMap) (ty : RouteType) : Nat :=
  (m.map (fun p => countInnerRouteType p.2 ty)).sum

/-- A base token on `chainA` with two synthetic siblings on `chainB` and
`chainC`, the configuration of the spec's end-to-end example. -/
def sampleToken : TokenMetadataWithHypTokens :=
  { protocol := ProtocolType.ethereum
    tokenType := TokenType.collateral
    caip2Id := "chainA"
    address := "0xaaaaaaaaaaaaaaaaaaaaaaaaaaaaaaaaaaaaaaaa"
    symbol := "X"
    name := "TokenX"
    decimals := 18
    tokenRouterAddress := "0xbbbbbbbbbbbbbbbbbbbbbbbbbbbbbbbbbbbbbbbb"
    hypTokens := [{ address := "0xcccccccccccccccccccccccccccccccccccccccc", caip2Id := "chainB" },
                  { address := "0xdddddddddddddddddddddddddddddddddddddddd", caip2Id := "chainC" }] }

/-- The route graph built from `sampleToken` alone. -/
def sampleRoutes : RoutesMap :=
  (computeTokenRoutes [sampleToken]).getD []

/-- A base token whose two synthetic siblings live on different chains but
share one contract address (as with deterministic cross-chain deployment). -/
def sameAddrToken : TokenMetadataWithHypTokens :=
  { protocol := ProtocolType.ethereum
    tokenType := TokenType.collateral
    caip2Id := "chainA"
    address := "0xaaaaaaaaaaaaaaaaaaaaaaaaaaaaaaaaaaaaaaaa"
    symbol := "X"
    name := "TokenX"
    decimals := 18
    tokenRouterAddress := "0xbbbbbbbbbbbbbbbbbbbbbbbbbbbbbbbbbbbbbbbb"
    hypTokens := [{ address := "0xeeeeeeeeeeeeeeeeeeeeeeeeeeeeeeeeeeeeeeee", caip2Id := "chainB" },
                  { address := "0xeeeeeeeeeeeeeeeeeeeeeeeeeeeeeeeeeeeeeeee", caip2Id := "chainC" }] }

/-- The route graph built from `sameAddrToken` alone. -/
def sameAddrRoutes : RoutesMap :=
  (computeTokenRoutes [sameAddrToken]).getD []

theorem alookup_map_self {α : Type} (f : Caip2Id → α) (all : List Caip2Id) (X : Caip2Id) :
    alookup (all.map (fun o => (o, f o))) X = if X ∈ all then some (f X) else none := by
  induction all with
  | nil => simp [alookup]
  | cons a rest ih =>
    by_cases h : a = X
    · subst h
      simp [alookup]
    · rw [List.map_cons, alookup, if_neg h, ih]
      by_cases hm : X ∈ rest
      · rw [if_pos hm, if_pos (List.mem_cons_of_mem a hm)]
      · rw [if_neg hm, if_neg]
        intro hc
        rcases List.mem_cons.mp hc with h1 | h2
        · exact h h1.symm
        · exact hm h2

theorem pushInner_alookup_self (inner inner2 : InnerRoutes) (key : Caip2Id) (r : Route)
    (h : pushInner inner key r = some inner2) :
    alookup inner2 key = (alookup inner key).map (fun rs => rs ++ [r]) := by
  induction inner generalizing inner2 with
  | nil => simp [pushInner] at h
  | cons p rest ih =>
    obtain ⟨k, rs⟩ := p
    by_cases hk : k = key
    · rw [pushInner, if_pos hk] at h
      obtain rfl := Option.some.inj h
      simp [alookup, hk]
    · rw [pushInner, if_neg hk] at h
      cases hrec : pushInner rest key r with
      | none => rw [hrec] at h; simp at h
      | some rest2 =>
        rw [hrec] at h
        obtain rfl := Option.some.inj h
        simp only [alookup, if_neg hk]
        exact ih rest2 hrec

theorem pushInner_alookup_ne (inner inner2 : InnerRoutes) (key key2 : Caip2Id) (r : Route)
    (h : pushInner inner key r = some inner2) (hne : key2 ≠ key) :
    alookup inner2 key2 = alookup inner key2 := by
  induction inner generalizing inner2 with
  | nil => simp [pushInner] at h
  | cons p rest ih =>
    obtain ⟨k, rs⟩ := p
    by_cases hk : k = key
    · rw [pushInner, if_pos hk] at h
      obtain rfl := Option.some.inj h
      have hk2 : ¬ k = key2 := by
        rw [hk]
        exact fun hc => hne hc.symm
      rw [alookup, alookup, if_neg hk2, if_neg hk2]
    · rw [pushInner, if_neg hk] at h
      cases hrec : pushInner rest key r with
      | none => rw [hrec] at h; simp at h
      | some rest2 =>
        rw [hrec] at h
        obtain rfl := Option.some.inj h
        by_cases hk2 : k = key2
        · simp [alookup, hk2]
        · rw [alookup, alookup, if_neg hk2, if_neg hk2]
          exact ih rest2 hrec

theorem pushInner_isSome (inner inner2 : InnerRoutes) (key : Caip2Id) (r : Route)
    (h : pushInner inner key r = some inner2) :
    (alookup inner key).isSome := by
  induction inner generalizing inner2 with
  | nil => simp [pushInner] at h
  | cons p rest ih =>
    obtain ⟨k, rs⟩ := p
    by_cases hk : k = key
    · simp [alookup, hk]
    · rw [pushInner, if_neg hk] at h
      cases hrec : pushInner rest key r with
      | none => rw [hrec] at h; simp at h
      | some rest2 =>
        rw [alookup, if_neg hk]
        exact ih rest2 hrec

theorem pushRoute_cases (m m2 : RoutesMap) (o d : Caip2Id) (r : Route)
    (h : pushRoute m o d r = some m2) :
    (∃ inner inner2, alookup m o = some inner ∧ alookup m2 o = some inner2 ∧
      pushInner inner d r = some inner2) ∧
    ∀ X, X ≠ o → alookup m2 X = alookup m X := by
  induction m generalizing m2 with
  | nil => simp [pushRoute] at h
  | cons p rest ih =>
    obtain ⟨k, inner⟩ := p
    by_cases hk : k = o
    · rw [pushRoute, if_pos hk] at h
      cases hInner : pushInner inner d r with
      | none => rw [hInner] at h; simp at h
      | some inner2 =>
        rw [hInner] at h
        obtain rfl := Option.some.inj h
        constructor
        · exact ⟨inner, inner2, by simp [alookup, hk], by simp [alookup, hk], hInner⟩
        · intro X hX
          have hkX : ¬ k = X := by
            rw [hk]
            exact fun hc => hX hc.symm
          rw [alookup, alookup, if_neg hkX, if_neg hkX]
    · rw [pushRoute, if_neg hk] at h
      cases hrec : pushRoute rest o d r with
      | none => rw [hrec] at h; simp at h
      | some rest2 =>
        rw [hrec] at h
        obtain rfl := Option.some.inj h
        obtain ⟨⟨inner0, inner02, h1, h2, h3⟩, hother⟩ := ih rest2 hrec
        constructor
        · refine ⟨inner0, inner02, ?_, ?_, h3⟩
          · rw [alookup, if_neg hk]; exact h1
          · rw [alookup, if_neg hk]; exact h2
        · intro X hX
          by_cases hkX : k = X
          · simp [alookup, hkX]
          · rw [alookup, alookup, if_neg hkX, if_neg hkX]
            exact hother X hX

theorem pushRoute_lookupRoutes_self (m m2 : RoutesMap) (o d : Caip2Id) (r : Route)
    (h : pushRoute m o d r = some m2) :
    lookupRoutes m2 o d = (lookupRoutes m o d).map (fun rs => rs ++ [r]) := by
  obtain ⟨⟨inner, inner2, h1, h2, h3⟩, _⟩ := pushRoute_cases m m2 o d r h
  rw [lookupRoutes, lookupRoutes, h1, h2, Option.some_bind, Option.some_bind]
  exact pushInner_alookup_self inner inner2 d r h3

theorem pushRoute_lookupRoutes_ne (m m2 : RoutesMap) (o d X Y : Caip2Id) (r : Route)
    (h : pushRoute m o d r = some m2) (hne : ¬ (X = o ∧ Y = d)) :
    lookupRoutes m2 X Y = lookupRoutes m X Y := by
  obtain ⟨⟨inner, inner2, h1, h2, h3⟩, hother⟩ := pushRoute_cases m m2 o d r h
  by_cases hX : X = o
  · subst hX
    have hY : Y ≠ d := fun hc => hne ⟨rfl, hc⟩
    rw [lookupRoutes, lookupRoutes, h1, h2, Option.some_bind, Option.some_bind]
    exact pushInner_alookup_ne inner inner2 d Y r h3 hY
  · rw [lookupRoutes, lookupRoutes, hother X hX]

theorem pushRoute_lookupRoutes_isSome (m m2 : RoutesMap) (o d : Caip2Id) (r : Route)
    (h : pushRoute m o d r = some m2) :
    (lookupRoutes m o d).isSome := by
  obtain ⟨⟨inner, inner2, h1, _h2, h3⟩, _⟩ := pushRoute_cases m m2 o d r h
  rw [lookupRoutes, h1, Option.some_bind]
  exact pushInner_isSome inner inner2 d r h3

theorem pushRoute_isSome_iff (m m2 : RoutesMap) (o d X Y : Caip2Id) (r : Route)
    (h : pushRoute m o d r = some m2) :
    (lookupRoutes m2 X Y).isSome = (lookupRoutes m X Y).isSome := by
  by_cases hXY : X = o ∧ Y = d
  · obtain ⟨rfl, rfl⟩ := hXY
    rw [pushRoute_lookupRoutes_self m m2 X Y r h]
    cases lookupRoutes m X Y <;> rfl
  · rw [pushRoute_lookupRoutes_ne m m2 o d X Y r h hXY]

theorem pushAll_lookupRoutes (us : List RoutePush) (m m2 : RoutesMap)
    (h : pushAll m us = some m2) (X Y : Caip2Id) :
    lookupRoutes m2 X Y = (lookupRoutes m X Y).map (fun rs => rs ++ routesFor us X Y) := by
  induction us generalizing m with
  | nil =>
    obtain rfl := Option.some.inj h
    cases lookupRoutes m X Y <;> simp [routesFor]
  | cons u rest ih =>
    rw [pushAll] at h
    cases hp : pushRoute m u.origin u.dest u.route with
    | none => rw [hp] at h; simp at h
    | some m1 =>
      rw [hp, Option.some_bind] at h
      rw [ih m1 h]
      by_cases hXY : u.origin = X ∧ u.dest = Y
      · obtain ⟨h1, h2⟩ := hXY
        subst h1; subst h2
        rw [pushRoute_lookupRoutes_self m m1 u.origin u.dest u.route hp]
        have hsel : routesFor (u :: rest) u.origin u.dest =
            u.route :: routesFor rest u.origin u.dest := by
          simp [routesFor]
        rw [hsel]
        cases lookupRoutes m u.origin u.dest <;> simp
      · have hne : ¬ (u.origin = X ∧ u.dest = Y) := hXY
        rw [pushRoute_lookupRoutes_ne m m1 u.origin u.dest X Y u.route hp
          (fun hc => hne ⟨hc.1.symm, hc.2.symm⟩)]
        have hsel : routesFor (u :: rest) X Y = routesFor rest X Y := by
          simp only [routesFor, List.filter_cons]
          rw [if_neg]
          simp [hne]
        rw [hsel]

theorem pushAll_mem_isSome (us : List RoutePush) (m m2 : RoutesMap)
    (h : pushAll m us = some m2) (u : RoutePush) (hu : u ∈ us) :
    (lookupRoutes m u.origin u.dest).isSome := by
  induction us generalizing m with
  | nil => simp at hu
  | cons u0 rest ih =>
    rw [pushAll] at h
    cases hp : pushRoute m u0.origin u0.dest u0.route with
    | none => rw [hp] at h; simp at h
    | some m1 =>
      rw [hp, Option.some_bind] at h
      rcases List.mem_cons.mp hu with rfl | hmem
      · exact pushRoute_lookupRoutes_isSome m m1 u.origin u.dest u.route hp
      · have := ih m1 h hmem
        rw [← pushRoute_isSome_iff m m1 u0.origin u0.dest u.origin u.dest u0.route hp]
        exact this

theorem lookupRoutes_init (all : List Caip2Id) (X Y : Caip2Id) :
    lookupRoutes (initRoutesMap all) X Y =
      if X ∈ all ∧ Y ∈ all ∧ Y ≠ X then some [] else none := by
  rw [lookupRoutes, initRoutesMap, alookup_map_self]
  by_cases hX : X ∈ all
  · rw [if_pos hX, Option.some_bind, initInnerRoutes]
    have := alookup_map_self (fun _ => ([] : List Route))
      (all.filter (fun dest => decide (dest ≠ X))) Y
    rw [this]
    by_cases hY : Y ∈ all ∧ Y ≠ X
    · rw [if_pos (by simp [List.mem_filter, hY.1, hY.2]), if_pos ⟨hX, hY⟩]
    · rw [if_neg (by
          simp only [List.mem_filter, decide_eq_true_eq, not_and]
          intro h1
          exact fun h2 => hY ⟨h1, h2⟩),
        if_neg (fun hc => hY hc.2)]
  · rw [if_neg hX, if_neg (fun hc => hX hc.1), Option.none_bind]

theorem mem_routesFor (us : List RoutePush) (X Y : Caip2Id) (e : Route) :
    e ∈ routesFor us X Y ↔ RoutePush.mk X Y e ∈ us := by
  rw [routesFor, List.mem_map]
  constructor
  · rintro ⟨u, hu, rfl⟩
    obtain ⟨hmem, hcond⟩ := List.mem_filter.mp hu
    obtain ⟨h1, h2⟩ := of_decide_eq_true hcond
    obtain ⟨uo, ud, ur⟩ := u
    simp only at h1 h2
    subst h1; subst h2
    exact hmem
  · intro hmem
    exact ⟨RoutePush.mk X Y e, List.mem_filter.mpr ⟨hmem, by simp⟩, rfl⟩

theorem mem_getTokenRoutes_iff (tokens : List TokenMetadataWithHypTokens) (m : RoutesMap)
    (h : computeTokenRoutes tokens = some m) (X Y : Caip2Id) (e : Route) :
    e ∈ getTokenRoutes X Y m ↔ RoutePush.mk X Y e ∈ allUpdates tokens := by
  rw [computeTokenRoutes] at h
  have hl := pushAll_lookupRoutes (allUpdates tokens) _ m h X Y
  rw [lookupRoutes_init] at hl
  rw [getTokenRoutes]
  by_cases hc : X ∈ getChainsFromTokens tokens ∧ Y ∈ getChainsFromTokens tokens ∧ Y ≠ X
  · rw [if_pos hc] at hl
    simp only [Option.map_some', List.nil_append] at hl
    rw [hl]
    simp only [Option.getD_some]
    exact mem_routesFor (allUpdates tokens) X Y e
  · rw [if_neg hc] at hl
    simp only [Option.map_none'] at hl
    rw [hl]
    simp only [Option.getD_none, List.not_mem_nil, false_iff]
    intro hmem
    have := pushAll_mem_isSome (allUpdates tokens) _ m h (RoutePush.mk X Y e) hmem
    rw [lookupRoutes_init, if_neg hc] at this
    simp at this

theorem tokenUpdates_shape (t : TokenMetadataWithHypTokens) (u : RoutePush)
    (hu : u ∈ tokenUpdates t) :
    ∃ h, h ∈ t.hypTokens ∧
      (u = RoutePush.mk t.caip2Id h.caip2Id (mkBaseToSynthetic t h) ∨
       u = RoutePush.mk h.caip2Id t.caip2Id (mkSyntheticToBase t h) ∨
       ∃ h2, h2 ∈ t.hypTokens ∧ h2.caip2Id ≠ h.caip2Id ∧
         (u = RoutePush.mk h.caip2Id h2.caip2Id (mkSyntheticToSynthetic t h h2) ∨
          u = RoutePush.mk h2.caip2Id h.caip2Id (mkSyntheticToSynthetic t h2 h))) := by
  rw [tokenUpdates] at hu
  obtain ⟨h, hh, hmem⟩ := List.mem_flatMap.mp hu
  refine ⟨h, hh, ?_⟩
  rcases List.mem_cons.mp hmem with rfl | hmem2
  · exact Or.inl rfl
  rcases List.mem_cons.mp hmem2 with rfl | hmem3
  · exact Or.inr (Or.inl rfl)
  obtain ⟨h2, hh2, hmem4⟩ := List.mem_flatMap.mp hmem3
  obtain ⟨hh2m, hh2c⟩ := List.mem_filter.mp hh2
  refine Or.inr (Or.inr ⟨h2, hh2m, of_decide_eq_true hh2c, ?_⟩)
  rcases List.mem_cons.mp hmem4 with rfl | hmem5
  · exact Or.inl rfl
  rcases List.mem_cons.mp hmem5 with rfl | hmem6
  · exact Or.inr rfl
  · simp at hmem6

theorem synToBase_mem_tokenUpdates (t : TokenMetadataWithHypTokens) (h : HypTokenRef)
    (hh : h ∈ t.hypTokens) :
    RoutePush.mk h.caip2Id t.caip2Id (mkSyntheticToBase t h) ∈ tokenUpdates t := by
  rw [tokenUpdates]
  exact List.mem_flatMap.mpr ⟨h, hh, by simp⟩

theorem mem_allUpdates (tokens : List TokenMetadataWithHypTokens) (u : RoutePush) :
    u ∈ allUpdates tokens ↔ ∃ t ∈ tokens, u ∈ tokenUpdates t := by
  rw [allUpdates]
  exact List.mem_flatMap

theorem countInner_pushInner (inner inner2 : InnerRoutes) (key : Caip2Id) (r : Route)
    (ty : RouteType) (h : pushInner inner key r = some inner2) :
    countInnerRouteType inner2 ty =
      countInnerRouteType inner ty + if r.routeType = ty then 1 else 0 := by
  induction inner generalizing inner2 with
  | nil => simp [pushInner] at h
  | cons p rest ih =>
    obtain ⟨k, rs⟩ := p
    by_cases hk : k = key
    · rw [pushInner, if_pos hk] at h
      obtain rfl := Option.some.inj h
      simp only [countInnerRouteType, List.map_cons, List.sum_cons, List.filter_append,
        List.length_append]
      by_cases hr : r.routeType = ty
      · simp [hr, Nat.add_assoc, Nat.add_comm, Nat.add_left_comm]
      · simp [hr]
    · rw [pushInner, if_neg hk] at h
      cases hrec : pushInner rest key r with
      | none => rw [hrec] at h; simp at h
      | some rest2 =>
        rw [hrec] at h
        obtain rfl := Option.some.inj h
        simp only [countInnerRouteType, List.map_cons, List.sum_cons] at ih ⊢
        rw [ih rest2 hrec, Nat.add_assoc]

theorem countRouteType_pushRoute (m m2 : RoutesMap) (o d : Caip2Id) (r : Route)
    (ty : RouteType) (h : pushRoute m o d r = some m2) :
    countRouteType m2 ty = countRouteType m ty + if r.routeType = ty then 1 else 0 := by
  induction m generalizing m2 with
  | nil => simp [pushRoute] at h
  | cons p rest ih =>
    obtain ⟨k, inner⟩ := p
    by_cases hk : k = o
    · rw [pushRoute, if_pos hk] at h
      cases hInner : pushInner inner d r with
      | none => rw [hInner] at h; simp at h
      | some inner2 =>
        rw [hInner] at h
        obtain rfl := Option.some.inj h
        simp only [countRouteType, List.map_cons, List.sum_cons]
        rw [countInner_pushInner inner inner2 d r ty hInner, Nat.add_assoc,
          Nat.add_comm (if r.routeType = ty then 1 else 0), ← Nat.add_assoc]
    · rw [pushRoute, if_neg hk] at h
      cases hrec : pushRoute rest o d r with
      | none => rw [hrec] at h; simp at h
      | some rest2 =>
        rw [hrec] at h
        obtain rfl := Option.some.inj h
        simp only [countRouteType, List.map_cons, List.sum_cons] at ih ⊢
        rw [ih rest2 hrec, Nat.add_assoc]

theorem countRouteType_pushAll (us : List RoutePush) (m m2 : RoutesMap)
    (ty : RouteType) (h : pushAll m us = some m2) :
    countRouteType m2 ty =
      countRouteType m ty + (us.filter (fun u => decide (u.route.routeType = ty))).length := by
  induction us generalizing m with
  | nil =>
    obtain rfl := Option.some.inj h
    simp
  | cons u rest ih =>
    rw [pushAll] at h
    cases hp : pushRoute m u.origin u.dest u.route with
    | none => rw [hp] at h; simp at h
    | some m1 =>
      rw [hp, Option.some_bind] at h
      rw [ih m1 h, countRouteType_pushRoute m m1 u.origin u.dest u.route ty hp,
        List.filter_cons]
      by_cases hr : u.route.routeType = ty
      · simp [hr, Nat.add_assoc, Nat.add_comm, Nat.add_left_comm]
      · simp [hr]

theorem countRouteType_init (all : List Caip2Id) (ty : RouteType) :
    countRouteType (initRoutesMap all) ty = 0 := by
  rw [countRouteType, initRoutesMap, List.map_map]
  apply List.sum_eq_zero
  intro x hx
  obtain ⟨o, _, rfl⟩ := List.mem_map.mp hx
  simp only [Function.comp_apply, countInnerRouteType, initInnerRoutes, List.map_map]
  apply List.sum_eq_zero
  intro y hy
  obtain ⟨d, _, rfl⟩ := List.mem_map.mp hy
  simp

theorem filter_flatMap_eq {α β : Type} (l : List α) (f : α → List β) (p : β → Bool) :
    (l.flatMap f).filter p = l.flatMap (fun a => (f a).filter p) := by
  induction l with
  | nil => rfl
  | cons a rest ih => simp [List.flatMap_cons, List.filter_append, ih]

theorem sum_map_eq_of_const {α : Type} (l : List α) (f : α → Nat) (c : Nat)
    (h : ∀ a ∈ l, f a = c) : (l.map f).sum = l.length * c := by
  induction l with
  | nil => simp
  | cons a rest ih =>
    rw [List.map_cons, List.sum_cons, h a (List.mem_cons_self a rest),
      ih (fun x hx => h x (List.mem_cons_of_mem a hx)), List.length_cons,
      Nat.succ_mul, Nat.add_comm]

theorem length_filter_ne_of_nodup (l : List HypTokenRef) (c : Caip2Id)
    (hnd : (l.map (fun h => h.caip2Id)).Nodup) (hc : c ∈ l.map (fun h => h.caip2Id)) :
    (l.filter (fun h2 => decide (h2.caip2Id ≠ c))).length = l.length - 1 := by
  induction l with
  | nil => simp at hc
  | cons a rest ih =>
    rw [List.map_cons, List.nodup_cons] at hnd
    obtain ⟨ha, hndr⟩ := hnd
    by_cases hac : a.caip2Id = c
    · rw [List.filter_cons, if_neg (by simp [hac])]
      have hall : rest.filter (fun h2 => decide (h2.caip2Id ≠ c)) = rest := by
        apply List.filter_eq_self.mpr
        intro x hx
        simp only [decide_eq_true_eq]
        intro hxc
        have hax : a.caip2Id = x.caip2Id := by rw [hac, hxc]
        exact ha (hax ▸ List.mem_map_of_mem _ hx)
      rw [hall]
      simp
    · have hcr : c ∈ rest.map (fun h => h.caip2Id) := by
        rw [List.map_cons] at hc
        rcases List.mem_cons.mp hc with h1 | h2
        · exact absurd h1.symm hac
        · exact h2
      have hpos : 0 < rest.length := by
        cases rest
        · simp at hcr
        · simp
      rw [List.filter_cons, if_pos (by simp [hac]), List.length_cons, ih hndr hcr,
        List.length_cons]
      omega

theorem tokenUpdates_synSyn_length (t : TokenMetadataWithHypTokens)
    (hnd : (t.hypTokens.map (fun h => h.caip2Id)).Nodup) :
    ((tokenUpdates t).filter
        (fun u => decide (u.route.routeType = RouteType.syntheticToSynthetic))).length =
      2 * t.hypTokens.length * (t.hypTokens.length - 1) := by
  rw [tokenUpdates, filter_flatMap_eq, List.length_flatMap]
  rw [sum_map_eq_of_const _ _ (2 * (t.hypTokens.length - 1)) ?_]
  · ring
  intro h hh
  simp only [Function.comp_apply]
  rw [List.filter_cons, List.filter_cons, if_neg (by simp [mkBaseToSynthetic]),
    if_neg (by simp [mkSyntheticToBase])]
  rw [filter_flatMap_eq, List.length_flatMap]
  rw [sum_map_eq_of_const _ _ 2 ?_]
  · rw [length_filter_ne_of_nodup t.hypTokens h.caip2Id hnd (List.mem_map_of_mem _ hh),
      Nat.mul_comm]
  intro h2 _
  simp [mkSyntheticToSynthetic]

theorem find?_eq_some_split {α : Type} (p : α → Bool) (l : List α) (x : α)
    (h : l.find? p = some x) :
    ∃ l1 l2, l = l1 ++ x :: l2 ∧ p x = true ∧ ∀ y ∈ l1, p y = false := by
  induction l with
  | nil => simp at h
  | cons a rest ih =>
    cases hpa : p a with
    | true =>
      rw [List.find?_cons_of_pos _ hpa] at h
      obtain rfl := Option.some.inj h
      exact ⟨[], rest, rfl, hpa, by simp⟩
    | false =>
      rw [List.find?_cons_of_neg _ (by simp [hpa])] at h
      obtain ⟨l1, l2, heq, hx, hall⟩ := ih h
      refine ⟨a :: l1, l2, by rw [heq, List.cons_append], hx, ?_⟩
      intro y hy
      rcases List.mem_cons.mp hy with rfl | hm
      · exact hpa
      · exact hall y hm

theorem zipWith_map_self {α β γ : Type} (f : α → β) (g : α → β → γ) (l : List α) :
    List.zipWith g l (l.map f) = l.map (fun x => g x (f x)) := by
  induction l with
  | nil => rfl
  | cons a rest ih => simp [ih]

theorem wrap64_eq_of_bounds (x : Int) (h0 : 0 ≤ x) (h1 : x < 2 ^ 63) : wrap64 x = x := by
  rw [wrap64]
  omega

/-- C4: on the collateral/native-router adapter (`EvmHypTokenCollateralAdapter`,
which backs both the HypCollateral and the HypNative standard), `getMetadata`,
`prepareApproveTx` and `prepareTransferTx` always yield the dedicated
unsupported-operation refusal for that capability — for every adapter state and
every recipient/amount argument, never any other failure and never an attempt
at the operation — through the same interface (same signatures and result
type) on which the fungible and native variants succeed. -/
theorem collateral_adapter_capability_refusal (a : EvmTokenAdapterState)
    (recipient : Address) (amountOrId : Nat) :
    EvmHypTokenCollateralAdapter.getMetadata a =
      .error "Metadata not available for HypCollateral/HypNative contract." ∧
    EvmHypTokenCollateralAdapter.prepareApproveTx a recipient amountOrId =
      .error "Approve not applicable to HypCollateral/HypNative contract." ∧
    EvmHypTokenCollateralAdapter.prepareTransferTx a recipient amountOrId =
      .error "Local transfer not supported for HypCollateral/HypNative contract." ∧
    (∃ md, EvmTokenAdapter.getMetadata a = .ok md) ∧
    (∃ tx, EvmTokenAdapter.prepareApproveTx a recipient amountOrId = .ok tx) ∧
    (∃ tx, EvmTokenAdapter.prepareTransferTx a recipient amountOrId = .ok tx) ∧
    (∃ tx, EvmNativeTokenAdapter.prepareTransferTx recipient amountOrId = .ok tx) :=
  ⟨rfl, rfl, rfl, ⟨_, rfl⟩, ⟨_, rfl⟩, ⟨_, rfl⟩, ⟨_, rfl⟩⟩

/-- C10: `getAllRouters` returns exactly one entry per domain of `getDomains`,
in the same order, the i-th entry pairing the i-th domain with the router
address resolved for that very domain — no domain dropped, duplicated, or
paired with another domain's address. -/
theorem getAllRouters_pairs_each_domain (a : EvmTokenAdapterState) :
    (EvmHypTokenAdapter.getAllRouters a).length = (EvmHypTokenAdapter.getDomains a).length ∧
    EvmHypTokenAdapter.getAllRouters a =
      (EvmHypTokenAdapter.getDomains a).map
        (fun d => RouterEntry.mk d (EvmHypTokenAdapter.getRouterAddress a d)) := by
  have h : EvmHypTokenAdapter.getAllRouters a =
      (EvmHypTokenAdapter.getDomains a).map
        (fun d => RouterEntry.mk d (EvmHypTokenAdapter.getRouterAddress a d)) := by
    rw [EvmHypTokenAdapter.getAllRouters]
    exact zipWith_map_self _ _ _
  exact ⟨by rw [h, List.length_map], h⟩

/-- C9: constructing a `CosmNativeTokenAdapter` with any of `ibcDenom`,
`sourcePort`, `sourceChannel` missing/empty fails at construction time with
the missing-configuration error, before any transfer can be attempted; with
all three present and non-empty, construction succeeds. -/
theorem cosm_adapter_construct_validates (chainName : String) (properties : CosmProperties) :
    ((properties.ibcDenom = "" ∨ properties.sourcePort = "" ∨ properties.sourceChannel = "") →
      CosmNativeTokenAdapter.construct chainName properties =
        .error "Missing properties for CosmNativeTokenAdapter") ∧
    (properties.ibcDenom ≠ "" → properties.sourcePort ≠ "" → properties.sourceChannel ≠ "" →
      CosmNativeTokenAdapter.construct chainName properties =
        .ok { chainName := chainName, properties := properties }) := by
  constructor
  · intro hmiss
    rw [CosmNativeTokenAdapter.construct, if_pos]
    rcases hmiss with h | h | h <;> simp [h]
  · intro h1 h2 h3
    rw [CosmNativeTokenAdapter.construct, if_neg]
    simp [h1, h2, h3]

/-- C8: for every constructed Cosmos IBC adapter, every transfer parameter
set with a sender identity, and every call-time clock reading `nowMs` (below
the 64-bit overflow bound of the `Long` nanosecond value), the produced
`MsgTransfer` carries `timeoutTimestamp = (nowMs + 60000) * 1e6` nanoseconds:
the one-minute deadline is recomputed from the clock passed at the call, and
the adapter state carries no clock at all, so a stale instance cannot pin an
old deadline. -/
theorem populateTransferTx_timeout_relative (a : CosmNativeTokenAdapterState)
    (transferParams : TransferParams) (memo : String) (nowMs : Nat)
    (howner : transferParams.fromAccountOwner ≠ "")
    (hbound : ((nowMs : Int) + COSMOS_IBC_TRANSFER_TIMEOUT) * 1000000 < 2 ^ 63) :
    ∃ msg, CosmNativeTokenAdapter.populateTransferTx a transferParams memo nowMs = .ok msg ∧
      msg.value.timeoutTimestamp =
        ((nowMs : Int) + COSMOS_IBC_TRANSFER_TIMEOUT) * 1000000 := by
  rw [CosmNativeTokenAdapter.populateTransferTx, if_neg howner]
  refine ⟨_, rfl, ?_⟩
  exact wrap64_eq_of_bounds _ (by omega) hbound

/-- C5: for an Ethereum contract-backed (collateral) token, a mismatch between
configured and on-chain decimals fails with the error naming the decimals
field and both values; with decimals equal, a symbol mismatch fails with the
error naming the configured symbol field and stating both values (the
on-chain value labelled `contract decimals` verbatim as in the source); with
both fields equal, validation passes. -/
theorem validateTokenMetadata_spec (token : TokenMetadata) (onChain : MinimalTokenMetadata)
    (hc : token.tokenType = TokenType.collateral)
    (hp : token.protocol = ProtocolType.ethereum) :
    (token.decimals ≠ onChain.decimals →
      validateTokenMetadata token onChain =
        .error ("Token config decimals " ++ toString token.decimals ++
          " does not match contract decimals " ++ toString onChain.decimals)) ∧
    (token.decimals = onChain.decimals → token.symbol ≠ onChain.symbol →
      validateTokenMetadata token onChain =
        .error ("Token config symbol " ++ token.symbol ++
          " does not match contract decimals " ++ onChain.symbol)) ∧
    (token.decimals = onChain.decimals → token.symbol = onChain.symbol →
      validateTokenMetadata token onChain = .ok ()) := by
  refine ⟨?_, ?_, ?_⟩
  · intro hd
    rw [validateTokenMetadata, if_neg (by simp [hc]), hp]
    simp only
    rw [if_pos hd]
  · intro hd hs
    rw [validateTokenMetadata, if_neg (by simp [hc]), hp]
    simp only
    rw [if_neg (by simp [hd]), if_pos hs]
  · intro hd hs
    rw [validateTokenMetadata, if_neg (by simp [hc]), hp]
    simp only
    rw [if_neg (by simp [hd]), if_neg (by simp [hs])]

/-- C1 (as stated, refuted): for the base token `sampleToken` with N = 2
synthetic siblings on two distinct chains (both distinct from the base
chain), the built graph contains 4 SyntheticToSynthetic edges, not
N·(N−1) = 2: the double loop emits each directed sibling edge twice. -/
theorem synSyn_mesh_count_counterexample :
    (computeTokenRoutes [sampleToken]).map
        (fun m => countRouteType m RouteType.syntheticToSynthetic) = some 4 ∧
    (computeTokenRoutes [sampleToken]).map
        (fun m => countRouteType m RouteType.syntheticToSynthetic) ≠
      some (sampleToken.hypTokens.length * (sampleToken.hypTokens.length - 1)) := by
  refine ⟨by rfl, ?_⟩
  intro h
  rw [show (computeTokenRoutes [sampleToken]).map
      (fun m => countRouteType m RouteType.syntheticToSynthetic) = some 4 from rfl] at h
  simp [sampleToken] at h

/-- C1 (amended): for every base token with N synthetic siblings on N
distinct chains, each distinct from the base chain, the built graph contains
exactly 2·N·(N−1) SyntheticToSynthetic directed edges for that token's
sibling mesh: the sibling double loop emits both directions for every ordered
pair of distinct siblings, so each directed edge is emitted exactly twice. -/
theorem computeTokenRoutes_synSyn_count (t : TokenMetadataWithHypTokens) (m : RoutesMap)
    (hnd : (t.caip2Id :: t.hypTokens.map (fun h => h.caip2Id)).Nodup)
    (hm : computeTokenRoutes [t] = some m) :
    countRouteType m RouteType.syntheticToSynthetic =
      2 * t.hypTokens.length * (t.hypTokens.length - 1) := by
  rw [computeTokenRoutes] at hm
  have hcount := countRouteType_pushAll (allUpdates [t]) _ m
    RouteType.syntheticToSynthetic hm
  rw [countRouteType_init, Nat.zero_add] at hcount
  rw [hcount, show allUpdates [t] = tokenUpdates t by simp [allUpdates]]
  exact tokenUpdates_synSyn_length t (List.nodup_cons.mp hnd).2

/-- C2: in every successfully built graph, every BaseToSynthetic edge stored
under origin X and destination Y has a SyntheticToBase mirror stored under
origin Y and destination X, with origin/destination token addresses swapped
and the same base chain id, base token address, router address and
decimals. -/
theorem baseToSynthetic_symmetry (tokens : List TokenMetadataWithHypTokens) (m : RoutesMap)
    (X Y : Caip2Id) (e : Route) (hm : computeTokenRoutes tokens = some m)
    (he : e ∈ getTokenRoutes X Y m) (ht : e.routeType = RouteType.baseToSynthetic) :
    ∃ e2, e2 ∈ getTokenRoutes Y X m ∧
      e2.routeType = RouteType.syntheticToBase ∧
      e2.originTokenAddress = e.destTokenAddress ∧
      e2.destTokenAddress = e.originTokenAddress ∧
      e2.baseCaip2Id = e.baseCaip2Id ∧
      e2.baseTokenAddress = e.baseTokenAddress ∧
      e2.tokenRouterAddress = e.tokenRouterAddress ∧
      e2.decimals = e.decimals := by
  have hmem := (mem_getTokenRoutes_iff tokens m hm X Y e).mp he
  obtain ⟨t, htok, hu⟩ := (mem_allUpdates tokens _).mp hmem
  obtain ⟨h, hh, hcase⟩ := tokenUpdates_shape t _ hu
  rcases hcase with hb2s | hs2b | ⟨h2, hh2, hne, hss | hss⟩
  · rw [RoutePush.mk.injEq] at hb2s
    obtain ⟨rfl, rfl, rfl⟩ := hb2s
    refine ⟨mkSyntheticToBase t h, ?_, ?_⟩
    · exact (mem_getTokenRoutes_iff tokens m hm _ _ _).mpr
        ((mem_allUpdates tokens _).mpr ⟨t, htok, synToBase_mem_tokenUpdates t h hh⟩)
    · simp [mkBaseToSynthetic, mkSyntheticToBase]
  · rw [RoutePush.mk.injEq] at hs2b
    obtain ⟨rfl, rfl, rfl⟩ := hs2b
    simp [mkSyntheticToBase] at ht
  · rw [RoutePush.mk.injEq] at hss
    obtain ⟨rfl, rfl, rfl⟩ := hss
    simp [mkSyntheticToSynthetic] at ht
  · rw [RoutePush.mk.injEq] at hss
    obtain ⟨rfl, rfl, rfl⟩ := hss
    simp [mkSyntheticToSynthetic] at ht

/-- C3 (as stated, refuted): with two synthetic siblings of one base token
deployed at the same contract address on two different chains
(`sameAddrToken`), the built graph stores a SyntheticToSynthetic route whose
origin and destination token addresses are identical — a self-loop edge in
the address sense, because the sibling loop only skips pairs on the same
chain, never pairs with equal addresses. -/
theorem no_self_loop_counterexample :
    (computeTokenRoutes [sameAddrToken]).map
      (fun m => (getTokenRoutes "chainB" "chainC" m).any
        (fun e => decide (e.originTokenAddress = e.destTokenAddress))) = some true := by
  rfl

/-- C3 (amended): if, for every input token, no synthetic sibling shares its
address with the token's router and no two siblings on different chains share
an address, then every stored route has distinct origin and destination token
addresses (no self-loop edges). -/
theorem routes_no_self_loop (tokens : List TokenMetadataWithHypTokens) (m : RoutesMap)
    (X Y : Caip2Id) (e : Route)
    (hdist : ∀ t ∈ tokens,
      (∀ h ∈ t.hypTokens, h.address ≠ t.tokenRouterAddress) ∧
      (∀ h1 ∈ t.hypTokens, ∀ h2 ∈ t.hypTokens,
        h1.caip2Id ≠ h2.caip2Id → h1.address ≠ h2.address))
    (hm : computeTokenRoutes tokens = some m)
    (he : e ∈ getTokenRoutes X Y m) :
    e.originTokenAddress ≠ e.destTokenAddress := by
  have hmem := (mem_getTokenRoutes_iff tokens m hm X Y e).mp he
  obtain ⟨t, htok, hu⟩ := (mem_allUpdates tokens _).mp hmem
  obtain ⟨h, hh, hcase⟩ := tokenUpdates_shape t _ hu
  obtain ⟨hrouter, haddr⟩ := hdist t htok
  rcases hcase with hb2s | hs2b | ⟨h2, hh2, hne, hss | hss⟩
  · rw [RoutePush.mk.injEq] at hb2s
    obtain ⟨-, -, rfl⟩ := hb2s
    exact fun hc => hrouter h hh (by simpa [mkBaseToSynthetic] using hc.symm)
  · rw [RoutePush.mk.injEq] at hs2b
    obtain ⟨-, -, rfl⟩ := hs2b
    exact fun hc => hrouter h hh (by simpa [mkSyntheticToBase] using hc)
  · rw [RoutePush.mk.injEq] at hss
    obtain ⟨-, -, rfl⟩ := hss
    exact fun hc => haddr h hh h2 hh2 (Ne.symm hne) (by simpa [mkSyntheticToSynthetic] using hc)
  · rw [RoutePush.mk.injEq] at hss
    obtain ⟨-, -, rfl⟩ := hss
    exact fun hc => haddr h2 hh2 h hh hne (by simpa [mkSyntheticToSynthetic] using hc)

/-- C6: `getTokenRoutes` is a total function that returns the stored edge
list when the ordered chain pair is present and the empty sequence when
either level of the lookup is absent; in every successfully built graph the
diagonal pair (A, A) is absent, so the routes from any chain to itself are
empty. -/
theorem getTokenRoutes_total_or_empty (tokens : List TokenMetadataWithHypTokens)
    (m : RoutesMap) (A o d : Caip2Id) (hm : computeTokenRoutes tokens = some m) :
    getTokenRoutes A A m = [] ∧
    (lookupRoutes m o d = none → getTokenRoutes o d m = []) ∧
    (∀ rs, lookupRoutes m o d = some rs → getTokenRoutes o d m = rs) := by
  refine ⟨?_, ?_, ?_⟩
  · rw [computeTokenRoutes] at hm
    have hl := pushAll_lookupRoutes (allUpdates tokens) _ m hm A A
    rw [lookupRoutes_init, if_neg (fun hc => hc.2.2 rfl)] at hl
    simp only [Option.map_none'] at hl
    rw [getTokenRoutes, hl]
    rfl
  · intro hnone
    rw [getTokenRoutes, hnone]
    rfl
  · intro rs hsome
    rw [getTokenRoutes, hsome]
    rfl

/-- C7: `getTokenRoute` returns no match when the base-token address fails
EVM address-format validation; otherwise it returns exactly the first stored
route of the ordered pair's edge list whose `baseTokenAddress` matches the
given address (first match in graph insertion order — every earlier stored
route does not match), and no match when no stored route matches. -/
theorem getTokenRoute_first_match (o d : Caip2Id) (a : Address) (m : RoutesMap) :
    (isValidEvmAddress a = false → getTokenRoute o d a m = none) ∧
    (getTokenRoute o d a m = none → ∀ r ∈ getTokenRoutes o d m,
      isValidEvmAddress a = true → areAddressesEqual a r.baseTokenAddress = false) ∧
    (∀ r, getTokenRoute o d a m = some r →
      isValidEvmAddress a = true ∧ areAddressesEqual a r.baseTokenAddress = true ∧
      ∃ l1 l2, getTokenRoutes o d m = l1 ++ r :: l2 ∧
        ∀ r2 ∈ l1, areAddressesEqual a r2.baseTokenAddress = false) := by
  refine ⟨?_, ?_, ?_⟩
  · intro hv
    rw [getTokenRoute]
    simp [hv]
  · intro hnone r hr hv
    rw [getTokenRoute, if_neg (by simp [hv])] at hnone
    have := List.find?_eq_none.mp hnone r hr
    simpa using this
  · intro r hr
    by_cases hv : isValidEvmAddress a
    · rw [getTokenRoute, if_neg (by simp [hv])] at hr
      obtain ⟨l1, l2, heq, hpx, hall⟩ := find?_eq_some_split _ _ _ hr
      refine ⟨hv, hpx, l1, l2, heq, ?_⟩
      intro r2 hr2
      simpa using hall r2 hr2
    · rw [getTokenRoute, if_pos (by simp [Bool.not_eq_true] at hv ⊢; exact hv)] at hr
      exact absurd hr (by simp)

/-- C1 (witness): instantiating the amended count on `sampleToken`
(N = 2 siblings) gives 2·2·1 = 4 stored SyntheticToSynthetic edges. -/
theorem computeTokenRoutes_synSyn_count_witness :
    countRouteType sampleRoutes RouteType.syntheticToSynthetic = 4 := by
  have h := computeTokenRoutes_synSyn_count sampleToken sampleRoutes (by decide) (by rfl)
  exact h.trans (by decide)

/-- C2 (witness): the single BaseToSynthetic edge of the sample graph from
chainA to chainB has its SyntheticToBase mirror from chainB to chainA. -/
theorem baseToSynthetic_symmetry_witness :
    ∃ e2, e2 ∈ getTokenRoutes "chainB" "chainA" sampleRoutes ∧
      e2.routeType = RouteType.syntheticToBase ∧
      e2.originTokenAddress = (mkBaseToSynthetic sampleToken
        { address := "0xcccccccccccccccccccccccccccccccccccccccc",
          caip2Id := "chainB" }).destTokenAddress ∧
      e2.destTokenAddress = (mkBaseToSynthetic sampleToken
        { address := "0xcccccccccccccccccccccccccccccccccccccccc",
          caip2Id := "chainB" }).originTokenAddress ∧
      e2.baseCaip2Id = (mkBaseToSynthetic sampleToken
        { address := "0xcccccccccccccccccccccccccccccccccccccccc",
          caip2Id := "chainB" }).baseCaip2Id ∧
      e2.baseTokenAddress = (mkBaseToSynthetic sampleToken
        { address := "0xcccccccccccccccccccccccccccccccccccccccc",
          caip2Id := "chainB" }).baseTokenAddress ∧
      e2.tokenRouterAddress = (mkBaseToSynthetic sampleToken
        { address := "0xcccccccccccccccccccccccccccccccccccccccc",
          caip2Id := "chainB" }).tokenRouterAddress ∧
      e2.decimals = (mkBaseToSynthetic sampleToken
        { address := "0xcccccccccccccccccccccccccccccccccccccccc",
          caip2Id := "chainB" }).decimals :=
  baseToSynthetic_symmetry [sampleToken] sampleRoutes "chainA" "chainB"
    (mkBaseToSynthetic sampleToken
      { address := "0xcccccccccccccccccccccccccccccccccccccccc", caip2Id := "chainB" })
    (by rfl) (by decide) (by rfl)

/-- C3 (witness): in the sample graph, whose sibling addresses and router
address are pairwise distinct, the chainB-to-chainC sibling edge has distinct
origin and destination token addresses. -/
theorem routes_no_self_loop_witness :
    (mkSyntheticToSynthetic sampleToken
        { address := "0xcccccccccccccccccccccccccccccccccccccccc", caip2Id := "chainB" }
        { address := "0xdddddddddddddddddddddddddddddddddddddddd",
          caip2Id := "chainC" }).originTokenAddress ≠
    (mkSyntheticToSynthetic sampleToken
        { address := "0xcccccccccccccccccccccccccccccccccccccccc", caip2Id := "chainB" }
        { address := "0xdddddddddddddddddddddddddddddddddddddddd",
          caip2Id := "chainC" }).destTokenAddress :=
  routes_no_self_loop [sampleToken] sampleRoutes "chainB" "chainC"
    (mkSyntheticToSynthetic sampleToken
      { address := "0xcccccccccccccccccccccccccccccccccccccccc", caip2Id := "chainB" }
      { address := "0xdddddddddddddddddddddddddddddddddddddddd", caip2Id := "chainC" })
    (by decide) (by rfl) (by decide)

/-- C5 (witness): configured decimals 18 against on-chain decimals 6 fails
with the message stating both values. -/
theorem validateTokenMetadata_spec_witness :
    validateTokenMetadata
        { protocol := ProtocolType.ethereum, tokenType := TokenType.collateral,
          caip2Id := "chainA", address := "0xa", symbol := "TOK", name := "Tok",
          decimals := 18, tokenRouterAddress := "0xr" }
        { decimals := 6, symbol := "TOK", name := "Tok" } =
      .error ("Token config decimals " ++ toString (18 : Nat) ++
        " does not match contract decimals " ++ toString (6 : Nat)) :=
  (validateTokenMetadata_spec
    { protocol := ProtocolType.ethereum, tokenType := TokenType.collateral,
      caip2Id := "chainA", address := "0xa", symbol := "TOK", name := "Tok",
      decimals := 18, tokenRouterAddress := "0xr" }
    { decimals := 6, symbol := "TOK", name := "Tok" } rfl rfl).1 (by decide)

/-- C6 (witness): in the sample graph the chainA-to-chainA edge list is
empty. -/
theorem getTokenRoutes_total_or_empty_witness :
    getTokenRoutes "chainA" "chainA" sampleRoutes = [] :=
  (getTokenRoutes_total_or_empty [sampleToken] sampleRoutes "chainA" "chainA" "chainB"
    (by rfl)).1

/-- C7 (witness): querying the sample graph from chainA to chainB with the
base token's (valid) address returns the stored BaseToSynthetic edge as the
first match. -/
theorem getTokenRoute_first_match_witness :
    isValidEvmAddress "0xaaaaaaaaaaaaaaaaaaaaaaaaaaaaaaaaaaaaaaaa" = true ∧
    areAddressesEqual "0xaaaaaaaaaaaaaaaaaaaaaaaaaaaaaaaaaaaaaaaa"
      (mkBaseToSynthetic sampleToken
        { address := "0xcccccccccccccccccccccccccccccccccccccccc",
          caip2Id := "chainB" }).baseTokenAddress = true ∧
    ∃ l1 l2, getTokenRoutes "chainA" "chainB" sampleRoutes =
        l1 ++ (mkBaseToSynthetic sampleToken
          { address := "0xcccccccccccccccccccccccccccccccccccccccc",
            caip2Id := "chainB" }) :: l2 ∧
      ∀ r2 ∈ l1, areAddressesEqual "0xaaaaaaaaaaaaaaaaaaaaaaaaaaaaaaaaaaaaaaaa"
        r2.baseTokenAddress = false :=
  (getTokenRoute_first_match "chainA" "chainB"
    "0xaaaaaaaaaaaaaaaaaaaaaaaaaaaaaaaaaaaaaaaa" sampleRoutes).2.2
    (mkBaseToSynthetic sampleToken
      { address := "0xcccccccccccccccccccccccccccccccccccccccc", caip2Id := "chainB" })
    (by decide)

/-- C8 (witness): at clock reading 1700000000000 ms the constructed packet
times out at (1700000000000 + 60000)·10^6 nanoseconds. -/
theorem populateTransferTx_timeout_relative_witness :
    ∃ msg, CosmNativeTokenAdapter.populateTransferTx
        { chainName := "osmosis",
          properties := { ibcDenom := "uosmo", sourcePort := "transfer",
                          sourceChannel := "channel-1" } }
        { weiAmountOrId := 1000, recipient := "cosmos1recipient",
          fromAccountOwner := "osmo1sender" }
        "" 1700000000000 = .ok msg ∧
      msg.value.timeoutTimestamp =
        (((1700000000000 : Nat) : Int) + COSMOS_IBC_TRANSFER_TIMEOUT) * 1000000 :=
  populateTransferTx_timeout_relative
    { chainName := "osmosis",
      properties := { ibcDenom := "uosmo", sourcePort := "transfer",
                      sourceChannel := "channel-1" } }
    { weiAmountOrId := 1000, recipient := "cosmos1recipient",
      fromAccountOwner := "osmo1sender" }
    "" 1700000000000 (by decide) (by decide)

/-- C9 (witness): an empty `sourceChannel` fails construction with the
missing-configuration error, and fully populated properties construct
successfully. -/
theorem cosm_adapter_construct_validates_witness :
    CosmNativeTokenAdapter.construct "osmosis"
        { ibcDenom := "uosmo", sourcePort := "transfer", sourceChannel := "" } =
      .error "Missing properties for CosmNativeTokenAdapter" ∧
    CosmNativeTokenAdapter.construct "osmosis"
        { ibcDenom := "uosmo", sourcePort := "transfer", sourceChannel := "channel-1" } =
      .ok { chainName := "osmosis",
            properties := { ibcDenom := "uosmo", sourcePort := "transfer",
                            sourceChannel := "channel-1" } } :=
  ⟨(cosm_adapter_construct_validates "osmosis"
      { ibcDenom := "uosmo", sourcePort := "transfer", sourceChannel := "" }).1
      (Or.inr (Or.inr rfl)),
   (cosm_adapter_construct_validates "osmosis"
      { ibcDenom := "uosmo", sourcePort := "transfer", sourceChannel := "channel-1" }).2
      (by decide) (by decide) (by decide)⟩
